import Mathlib

/-!
Shallow embedding of the row-processing pipeline of `src/main.py`
(class `Worker`, method `run`), together with the path derivation and
response-flattening helpers it uses.  External collaborators — the
inference service (`genai`), the JSON parser (`json.loads`), the tabular
loader (`pandas`) and the cancellation flag — are modelled as inputs in
an environment record; everything the `run` method itself computes is
translated directly from the source.
-/

namespace PersonaScope

/-- Python values produced by `json.loads`: null, booleans, numbers,
strings, lists and dicts (insertion-ordered key/value pairs). -/
inductive JVal where
  | jnull : JVal
  | jbool : Bool → JVal
  | jnum : Int → JVal
  | jstr : String → JVal
  | jarr : List JVal → JVal
  | jobj : List (String × JVal) → JVal

/-- Python `key in d` for a dict `d` (membership among the keys). -/
def hasKey (fs : List (String × JVal)) (k : String) : Bool :=
  fs.any (fun p => p.1 == k)

/-- Python `d[key]` / `d.get(key)`: the value stored at `k`; `jnull`
(Python `None`) when absent, matching `dict.get`'s default. -/
def lookupD (fs : List (String × JVal)) (k : String) : JVal :=
  match fs.lookup k with
  | some v => v
  | none => JVal.jnull

/-- `isinstance(v, dict)`. -/
def isObj : JVal → Bool
  | JVal.jobj _ => true
  | _ => false

/-- The loop body of lines 86-89 of `src/main.py`: for each key whose
value is a dict, emit the `<key>_value` / `<key>_confidence` pair;
other keys contribute nothing. -/
def flattenPairs : List (String × JVal) → List (String × JVal)
  | [] => []
  | (k, JVal.jobj sub) :: rest =>
      (k ++ "_value", lookupD sub "value")
        :: (k ++ "_confidence", lookupD sub "confidence")
        :: flattenPairs rest
  | _ :: rest => flattenPairs rest

/-- Lines 84-91 of `src/main.py`: flatten a parsed insights dict.  When
the dict carries an `error` key the flattened row is the single
`error` entry; otherwise every dict-valued key is flattened. -/
def flattenInsights (fs : List (String × JVal)) : List (String × JVal) :=
  if hasKey fs "error" then [("error", lookupD fs "error")] else flattenPairs fs

/-- One step of the characterisation of `flattenPairs` used in the
theorems: the pairs contributed by a single key/value entry. -/
def pairsOf : String × JVal → List (String × JVal)
  | (k, JVal.jobj sub) =>
      [(k ++ "_value", lookupD sub "value"), (k ++ "_confidence", lookupD sub "confidence")]
  | _ => []

/-- Left-to-right, non-overlapping replacement of the pattern `pat` by
`rep` over a character list (the semantics of Python `str.replace` for a
non-empty pattern).  The second argument counts characters of the input
still to be copied verbatim because they were consumed by a match. -/
def replaceAux (pat rep : List Char) : List Char → Nat → List Char
  | [], _ => []
  | _ :: rest, Nat.succ n => replaceAux pat rep rest n
  | c :: rest, 0 =>
      if pat.isPrefixOf (c :: rest) then rep ++ replaceAux pat rep rest (pat.length - 1)
      else c :: replaceAux pat rep rest 0

/-- Python `s.replace(pat, rep)` for a non-empty pattern. -/
def replaceStr (s pat rep : String) : String :=
  String.mk (replaceAux pat.toList rep.toList s.toList 0)

/-- Python `str.isspace` on the ASCII whitespace characters stripped by
`str.strip()`. -/
def isSpaceChar (c : Char) : Bool :=
  c == ' ' || c == '\t' || c == '\n' || c == '\r' || c == '\x0b' || c == '\x0c'

/-- Python `s.strip()`. -/
def stripStr (s : String) : String :=
  String.mk (((s.toList.dropWhile isSpaceChar).reverse.dropWhile isSpaceChar).reverse)

/-- Line 78 of `src/main.py`:
`response.text.replace('\x60\x60\x60json', '').replace('\x60\x60\x60', '').strip()`. -/
def cleanResponse (t : String) : String :=
  stripStr (replaceStr (replaceStr t "```json" "") "```" "")

/-- `os.path.basename` for POSIX paths: everything after the last slash. -/
def basename (p : String) : String :=
  String.mk ((p.toList.reverse.takeWhile (fun c => c != '/')).reverse)

/-- `os.path.dirname` for POSIX paths: everything before the last slash,
with trailing slashes stripped unless the head is all slashes. -/
def dirname (p : String) : String :=
  let cs := p.toList
  let afterLen := (cs.reverse.takeWhile (fun c => c != '/')).length
  let head := cs.take (cs.length - afterLen)
  if head.all (fun c => c == '/') then String.mk head
  else String.mk ((head.reverse.dropWhile (fun c => c == '/')).reverse)

/-- `os.path.splitext` applied to a slash-free base name: split at the
last dot, except that leading dots of the name never start an
extension. -/
def splitextBase (b : String) : String × String :=
  let cs := b.toList
  let lead := cs.takeWhile (fun c => c == '.')
  let rest := cs.drop lead.length
  if rest.contains '.' then
    let afterDot := rest.reverse.takeWhile (fun c => c != '.')
    let stemRest := rest.take (rest.length - afterDot.length - 1)
    (String.mk (lead ++ stemRest), String.mk ('.' :: afterDot.reverse))
  else (b, "")

/-- `os.path.join` for POSIX paths, two arguments. -/
def joinPath (d b : String) : String :=
  if List.isPrefixOf ['/'] b.toList then b
  else if d.toList == [] || d.toList.getLast? == some '/' then d ++ b
  else d ++ "/" ++ b

/-- Lines 100-103 of `src/main.py`: derive the output path from the
input path — same directory, same base name with the extension
stripped, suffix `_output.csv`. -/
def outputPath (input : String) : String :=
  let dir := dirname input
  let base := basename input
  let stem := (splitextBase base).1
  joinPath dir (stem ++ "_output.csv")

/-- Python `pat in s` for strings: substring test. -/
def containsSeq (pat : List Char) : List Char → Bool
  | [] => pat.isEmpty
  | c :: rest => pat.isPrefixOf (c :: rest) || containsSeq pat rest

/-- The prompt template of lines 62-75 of `src/main.py`, an f-string
embedding the normalized full name and username. -/
def promptFor (full_name username : String) : String :=
  "\n                Analyze the following social media user data:\n                Full Name: \"" ++ full_name
    ++ "\"\n                Username: \"" ++ username
    ++ "\"\n                As a world-class cultural and demographic analyst, infer the following metrics.\n                Your response MUST be a single, valid JSON object. Each prediction must include a \x27value\x27 and a \x27confidence\x27 score between 0.0 and 1.0.\n                JSON structure:\n                \x7b\n                \"predicted_gender\": \x7b\"value\": \"Male\", \"Female\", or \"Unisex/Unknown\", \"confidence\": float\x7d,\n                \"predicted_origin\": \x7b\"value\": \"Likely ethno-geographic origin\", \"confidence\": float\x7d,\n                \"deduced_language\": \x7b\"value\": \"Language detected in names\", \"confidence\": float\x7d,\n                \"user_persona\": \x7b\"value\": \"Inferred interest or category\", \"confidence\": float\x7d\n                \x7d\n                "

/-- The constructor arguments of `Worker.__init__` (line 19 of
`src/main.py`): credential, input path and the two selected columns. -/
structure WorkerConfig where
  api_key : String
  input_filepath : String
  fullname_col : String
  username_col : String

/-- The in-memory table produced by `pd.read_csv` / `pd.read_excel`:
ordered headers and rows of cells.  A cell is `none` when pandas read
it as missing (`NaN`), `some s` otherwise. -/
structure Dataset where
  headers : List String
  rows : List (List (Option String))

/-- The external collaborators of `Worker.run`, supplied as inputs:
the outcome of `genai.configure` + model construction, the outcome of
the pandas load, the per-row outcome of `model.generate_content`
(`Except.error` models a raised exception, `Except.ok` the response
text), the behaviour of `json.loads` on cleaned text, and the first
loop index at which the cancellation flag `is_running` reads false
(`none` when the stop button is never pressed). -/
structure Env where
  configure : Except String Unit
  loadData : Except String Dataset
  respond : Nat → Except String String
  loads : String → Except String JVal
  cancelAt : Option Nat

/-- The value of `self.is_running` read at the checkpoint of loop
iteration `i` is false (the flag is cleared monotonically). -/
def cancelObserved (env : Env) (i : Nat) : Bool :=
  match env.cancelAt with
  | none => false
  | some k => decide (k ≤ i)

/-- Python `row[col]` for a row of the loaded dataset. -/
def cellOf (hdrs : List String) (row : List (Option String)) (col : String) : Option String :=
  match hdrs.findIdx? (fun h => h == col) with
  | none => none
  | some i =>
      match row.get? i with
      | none => none
      | some c => c

/-- Lines 57-58 of `src/main.py`: `if pd.isna(x): x = ""` — a missing
cell is normalized to the empty string. -/
def normCell : Option String → String
  | none => ""
  | some s => s

/-- Lines 76-82 of `src/main.py`: the insights dict after the
try/except.  A raised request or a parse failure is caught and
replaced by `{error: message}`; a successful parse yields the parsed
value unchanged. -/
def rawInsights (env : Env) (i : Nat) : JVal :=
  match env.respond i with
  | Except.error e => JVal.jobj [("error", JVal.jstr e)]
  | Except.ok t =>
      match env.loads (cleanResponse t) with
      | Except.error e => JVal.jobj [("error", JVal.jstr e)]
      | Except.ok v => v

/-- The message of the exception caught by the inner try/except of
lines 76-82 for row `i`, when one is raised. -/
def rowError (env : Env) (i : Nat) : Option String :=
  match env.respond i with
  | Except.error e => some e
  | Except.ok t =>
      match env.loads (cleanResponse t) with
      | Except.error e => some e
      | Except.ok _ => none

/-- Events observable by the caller during a run: `progress` signals,
inference requests issued to the collaborator, and the fixed
`time.sleep(3)` pause of line 95. -/
inductive Event where
  | progress : String → Event
  | inferCall : Nat → String → Event
  | sleep : Event
  deriving DecidableEq

/-- The warning progress event of line 81, present exactly when the
inner try/except caught an exception for row `i`. -/
def rowWarnEvents (env : Env) (i : Nat) (username : String) : List Event :=
  match rowError env i with
  | some e => [Event.progress ("Warning: API call failed for " ++ username ++ ". Error: " ++ e)]
  | none => []

/-- The Python evaluation of the flattening block (lines 84-91)
applied to the insights value.  When the parsed value is not a dict,
line 85 (`if \x27error\x27 not in insights`) or line 86
(`insights.items()`) or line 91 (`insights[\x27error\x27]`) raises, which
escapes to the outer handler of line 108. -/
def flattenStep : JVal → Except String (List (String × JVal))
  | JVal.jobj fs => Except.ok (flattenInsights fs)
  | JVal.jstr s =>
      if containsSeq "error".toList s.toList then
        Except.error "string indices must be integers"
      else Except.error "\x27str\x27 object has no attribute \x27items\x27"
  | JVal.jarr xs =>
      if xs.any (fun v => match v with | JVal.jstr s => s == "error" | _ => false) then
        Except.error "list indices must be integers or slices, not str"
      else Except.error "\x27list\x27 object has no attribute \x27items\x27"
  | JVal.jnum _ => Except.error "argument of type \x27int\x27 is not iterable"
  | JVal.jbool _ => Except.error "argument of type \x27bool\x27 is not iterable"
  | JVal.jnull => Except.error "argument of type \x27NoneType\x27 is not iterable"

/-- The events of one loop iteration up to (and including) any warning
of the inner try/except: the "Analyzing row ..." progress of line 60,
the inference request of line 77, and the warning of line 81 when the
request or parse failed. -/
def rowEventsPre (cfg : WorkerConfig) (env : Env) (hdrs : List String) (total : Nat)
    (row : List (Option String)) (i : Nat) : List Event :=
  Event.progress ("Analyzing row " ++ toString (i + 1) ++ "/" ++ toString total ++ ": "
      ++ normCell (cellOf hdrs row cfg.username_col) ++ "...")
    :: Event.inferCall i (promptFor (normCell (cellOf hdrs row cfg.fullname_col))
        (normCell (cellOf hdrs row cfg.username_col)))
    :: rowWarnEvents env i (normCell (cellOf hdrs row cfg.username_col))

/-- How the per-row loop of lines 48-95 ended: all rows processed with
their flattened results collected in order, or the cancellation
checkpoint fired, or the flattening block raised (non-dict insights)
and control escaped to the outer handler. -/
inductive LoopOut where
  | done : List (List (String × JVal)) → LoopOut
  | stopped : LoopOut
  | crashed : String → LoopOut

/-- The per-row loop of lines 48-95 of `src/main.py`, processing the
remaining `rows` starting at index `i`: cancellation checkpoint, cell
normalization, progress event, inference request, parse/flatten, append,
fixed sleep. -/
def runLoop (cfg : WorkerConfig) (env : Env) (hdrs : List String) (total : Nat) :
    List (List (Option String)) → Nat → List Event × LoopOut
  | [], _ => ([], LoopOut.done [])
  | row :: rest, i =>
    if cancelObserved env i then
      ([Event.progress "\nAnalysis stopped by user."], LoopOut.stopped)
    else
      match flattenStep (rawInsights env i) with
      | Except.error msg => (rowEventsPre cfg env hdrs total row i, LoopOut.crashed msg)
      | Except.ok flat =>
          let r := runLoop cfg env hdrs total rest (i + 1)
          match r.2 with
          | LoopOut.done rs =>
              (rowEventsPre cfg env hdrs total row i ++ Event.sleep :: r.1,
               LoopOut.done (flat :: rs))
          | out => (rowEventsPre cfg env hdrs total row i ++ Event.sleep :: r.1, out)

/-- The written output of line 98: `pd.concat([df, results_df], axis=1)`
— the original dataset side by side with the per-row results, aligned
by position. -/
structure FinalTable where
  data : Dataset
  results : List (List (String × JVal))

/-- The number of rows of the concatenated output frame:
`pd.concat(axis=1)` aligns the two reset ranges positionally and pads
the shorter one, so the row count is the maximum of the two. -/
def FinalTable.numRows (t : FinalTable) : Nat :=
  max t.data.rows.length t.results.length

/-- How `Worker.run` terminated: `finished.emit(output_filepath)`, an
`error.emit(message)`, or the silent return after the cancellation
notice. -/
inductive Outcome where
  | finished : String → Outcome
  | failedRun : String → Outcome
  | cancelled : Outcome

/-- A whole run: the progress/request/sleep events in order, the
terminal outcome, and the file written by `to_csv` (path and content),
`none` when the run wrote nothing. -/
structure RunResult where
  events : List Event
  outcome : Outcome
  written : Option (String × FinalTable)

/-- `Worker.run` (lines 27-109 of `src/main.py`): configure the client,
load the dataset, check the two selected columns, process the rows, and
on natural completion concatenate and persist the output. -/
def Worker.run (cfg : WorkerConfig) (env : Env) : RunResult :=
  match env.configure with
  | Except.error e =>
      ⟨[], Outcome.failedRun ("A critical error occurred: " ++ e), none⟩
  | Except.ok _ =>
    let ev0 := Event.progress "Gemini API configured successfully."
    match env.loadData with
    | Except.error e =>
        ⟨[ev0], Outcome.failedRun ("A critical error occurred: " ++ e), none⟩
    | Except.ok df =>
      let ev1 := Event.progress ("Successfully loaded " ++ basename cfg.input_filepath ++ ".")
      if df.headers.contains cfg.fullname_col && df.headers.contains cfg.username_col then
        let ev2 := Event.progress ("Found " ++ toString df.rows.length ++ " rows to analyze.")
        let r := runLoop cfg env df.headers df.rows.length df.rows 0
        match r.2 with
        | LoopOut.done rs =>
            let p := outputPath cfg.input_filepath
            ⟨ev0 :: ev1 :: ev2 :: r.1, Outcome.finished p, some (p, ⟨df, rs⟩)⟩
        | LoopOut.stopped =>
            ⟨ev0 :: ev1 :: ev2 :: r.1, Outcome.cancelled, none⟩
        | LoopOut.crashed msg =>
            ⟨ev0 :: ev1 :: ev2 :: r.1,
             Outcome.failedRun ("A critical error occurred: " ++ msg), none⟩
      else
        ⟨[ev0, ev1],
         Outcome.failedRun ("Column Error: Please ensure \x27" ++ cfg.fullname_col
           ++ "\x27 and \x27" ++ cfg.username_col ++ "\x27 exist in the file."), none⟩

/-- The flattened result recorded for row `i` when the flattening block
does not raise: `flattenInsights` of the insights dict. -/
def flatOf (env : Env) (i : Nat) : List (String × JVal) :=
  match rawInsights env i with
  | JVal.jobj fs => flattenInsights fs
  | _ => []

/-- The results buffer a completed loop collects for `rows` starting at
index `i`, one flattened result per row in order. -/
def expectedResults (env : Env) : List (List (Option String)) → Nat → List (List (String × JVal))
  | [], _ => []
  | _ :: rest, i => flatOf env i :: expectedResults env rest (i + 1)

/-- The event trace a completed loop emits for `rows` starting at index
`i`: per row, the pre-events followed by the sleep. -/
def expectedEvents (cfg : WorkerConfig) (env : Env) (hdrs : List String) (total : Nat) :
    List (List (Option String)) → Nat → List Event
  | [], _ => []
  | row :: rest, i =>
      rowEventsPre cfg env hdrs total row i
        ++ Event.sleep :: expectedEvents cfg env hdrs total rest (i + 1)

/-- Recognize the `time.sleep(3)` event. -/
def isSleep : Event → Bool
  | Event.sleep => true
  | _ => false

/-- Recognize an inference request event. -/
def isCall : Event → Bool
  | Event.inferCall _ _ => true
  | _ => false

/-- Number of `time.sleep(3)` pauses in a trace. -/
def countSleeps (evs : List Event) : Nat := (evs.filter isSleep).length

/-- Number of inference requests issued in a trace. -/
def countCalls (evs : List Event) : Nat := (evs.filter isCall).length

/-- The four attribute names the prompt requests. -/
def fourAttrs : List String :=
  ["predicted_gender", "predicted_origin", "deduced_language", "user_persona"]

/-- All four `_value`/`_confidence` pairs are present in a flattened
result row. -/
def fourPairsPresent (r : List (String × JVal)) : Bool :=
  fourAttrs.all (fun a => hasKey r (a ++ "_value") && hasKey r (a ++ "_confidence"))

/-- The `error` key is present in a flattened result row. -/
def errorPresent (r : List (String × JVal)) : Bool := hasKey r "error"

/-- A parsed response object conforming to the requested schema: each
of the four attributes is bound to a dict. -/
def schemaConforming (fs : List (String × JVal)) : Prop :=
  ∀ a ∈ fourAttrs, ∃ sub, (a, JVal.jobj sub) ∈ fs

/- Concrete data used to exercise the theorems on closed inputs. -/

/-- A concrete worker configuration. -/
def demoCfg : WorkerConfig :=
  ⟨"key123", "data/users.xlsx", "Full Name", "Username"⟩

/-- A concrete two-row dataset; the second row has both cells missing. -/
def demoDf : Dataset :=
  ⟨["Full Name", "Username"], [[some "Alice Smith", some "alice01"], [none, none]]⟩

/-- The fields of a schema-conforming parsed response. -/
def goodFields : List (String × JVal) :=
  [("predicted_gender", JVal.jobj [("value", JVal.jstr "Female"), ("confidence", JVal.jnum 1)]),
   ("predicted_origin", JVal.jobj [("value", JVal.jstr "British"), ("confidence", JVal.jnum 1)]),
   ("deduced_language", JVal.jobj [("value", JVal.jstr "English"), ("confidence", JVal.jnum 1)]),
   ("user_persona", JVal.jobj [("value", JVal.jstr "General"), ("confidence", JVal.jnum 1)])]

/-- A schema-conforming parsed response. -/
def goodVal : JVal := JVal.jobj goodFields

/-- The flattened row derived from `goodFields`. -/
def goodFlat : List (String × JVal) :=
  [("predicted_gender_value", JVal.jstr "Female"), ("predicted_gender_confidence", JVal.jnum 1),
   ("predicted_origin_value", JVal.jstr "British"), ("predicted_origin_confidence", JVal.jnum 1),
   ("deduced_language_value", JVal.jstr "English"), ("deduced_language_confidence", JVal.jnum 1),
   ("user_persona_value", JVal.jstr "General"), ("user_persona_confidence", JVal.jnum 1)]

/-- The flattened row recorded when the row-0 inference call of
`demoEnvRowFail` raises. -/
def errFlat : List (String × JVal) := [("error", JVal.jstr "503 Service Unavailable")]

/-- A concrete stand-in for `json.loads`: parses the two fixed texts the
demo environments use and rejects everything else. -/
def demoLoads : String → Except String JVal := fun s =>
  if s == "GOOD" then Except.ok goodVal
  else if s == "\x7b\x7d" then Except.ok (JVal.jobj [])
  else Except.error "Expecting value: line 1 column 1 (char 0)"

/-- Environment of an uneventful two-row run: every call succeeds. -/
def demoEnv : Env :=
  ⟨Except.ok (), Except.ok demoDf, fun _ => Except.ok "GOOD", demoLoads, none⟩

/-- Environment where the inference call for row 0 raises and row 1
succeeds. -/
def demoEnvRowFail : Env :=
  ⟨Except.ok (), Except.ok demoDf,
   fun i => if i == 0 then Except.error "503 Service Unavailable" else Except.ok "GOOD",
   demoLoads, none⟩

/-- Environment whose credential is rejected at the configure step. -/
def demoEnvBadKey : Env :=
  ⟨Except.error "API key not valid. Please pass a valid API key.", Except.ok demoDf,
   fun _ => Except.ok "GOOD", demoLoads, none⟩

/-- Environment where the stop button is observed before row 1. -/
def demoEnvCancel : Env :=
  ⟨Except.ok (), Except.ok demoDf, fun _ => Except.ok "GOOD", demoLoads, some 1⟩

/-- Environment where row 0's response parses to the empty JSON object. -/
def demoEnvEmptyObj : Env :=
  ⟨Except.ok (), Except.ok demoDf,
   fun i => if i == 0 then Except.ok "\x7b\x7d" else Except.ok "GOOD",
   demoLoads, none⟩

/-- A configuration selecting a column that the dataset lacks. -/
def demoCfgBadCol : WorkerConfig :=
  ⟨"key123", "data/users.xlsx", "Nope", "Username"⟩

/-! ### Helper lemmas about the loop and the flattening step -/

theorem flattenStep_of_isObj (v : JVal) (h : isObj v = true) :
    ∃ fs, v = JVal.jobj fs ∧ flattenStep v = Except.ok (flattenInsights fs) := by
  cases v with
  | jobj fs => exact ⟨fs, rfl, rfl⟩
  | jnull => simp [isObj] at h
  | jbool b => simp [isObj] at h
  | jnum n => simp [isObj] at h
  | jstr s => simp [isObj] at h
  | jarr xs => simp [isObj] at h

theorem flattenStep_ok_inv (v : JVal) (flat : List (String × JVal))
    (h : flattenStep v = Except.ok flat) :
    ∃ fs, v = JVal.jobj fs ∧ flat = flattenInsights fs := by
  cases v with
  | jobj fs =>
      refine ⟨fs, rfl, ?_⟩
      simpa [flattenStep] using h.symm
  | jnull => simp [flattenStep] at h
  | jbool b => simp [flattenStep] at h
  | jnum n => simp [flattenStep] at h
  | jstr s =>
      simp only [flattenStep] at h
      split at h <;> exact Except.noConfusion h
  | jarr xs =>
      simp only [flattenStep] at h
      split at h <;> exact Except.noConfusion h

theorem runLoop_done_eq (cfg : WorkerConfig) (env : Env) (hdrs : List String) (total : Nat) :
    ∀ (rows : List (List (Option String))) (i : Nat),
      (∀ j, j < rows.length → cancelObserved env (i + j) = false) →
      (∀ j, j < rows.length → isObj (rawInsights env (i + j)) = true) →
      runLoop cfg env hdrs total rows i =
        (expectedEvents cfg env hdrs total rows i, LoopOut.done (expectedResults env rows i)) := by
  intro rows
  induction rows with
  | nil => intro i _ _; rfl
  | cons row rest ih =>
    intro i hc ho
    have hc0 : cancelObserved env i = false := by
      have h0 := hc 0 (Nat.succ_pos _)
      simpa using h0
    have ho0 : isObj (rawInsights env i) = true := by
      have h0 := ho 0 (Nat.succ_pos _)
      simpa using h0
    obtain ⟨fs, hv, hstep⟩ := flattenStep_of_isObj _ ho0
    have hrec := ih (i + 1)
      (fun j hj => by
        have h2 := hc (j + 1) (by simpa using Nat.succ_lt_succ hj)
        have e : i + (j + 1) = i + 1 + j := by omega
        rwa [e] at h2)
      (fun j hj => by
        have h2 := ho (j + 1) (by simpa using Nat.succ_lt_succ hj)
        have e : i + (j + 1) = i + 1 + j := by omega
        rwa [e] at h2)
    simp only [runLoop, hc0, Bool.false_eq_true, if_false, hstep, hrec,
      expectedEvents, expectedResults, flatOf, hv]
    simp [flattenStep]

theorem runLoop_cancel_eq (cfg : WorkerConfig) (env : Env) (hdrs : List String) (total : Nat)
    (k : Nat) (hk : env.cancelAt = some k) :
    ∀ (rows : List (List (Option String))) (i : Nat),
      i ≤ k → k < i + rows.length →
      (∀ j, j < rows.length → i + j < k → isObj (rawInsights env (i + j)) = true) →
      runLoop cfg env hdrs total rows i =
        (expectedEvents cfg env hdrs total (rows.take (k - i)) i
           ++ [Event.progress "\nAnalysis stopped by user."],
         LoopOut.stopped) := by
  intro rows
  induction rows with
  | nil => intro i h1 h2 _; simp at h2; omega
  | cons row rest ih =>
    intro i hik hlt ho
    by_cases hki : k ≤ i
    · have hobs : cancelObserved env i = true := by
        simp [cancelObserved, hk, hki]
      have hz : k - i = 0 := by omega
      simp [runLoop, hobs, hz, expectedEvents]
    · have hik1 : i < k := by omega
      have hobs : cancelObserved env i = false := by
        simp [cancelObserved, hk]; omega
      have ho0 : isObj (rawInsights env i) = true := by
        have h0 := ho 0 (Nat.succ_pos _) (by omega)
        simpa using h0
      obtain ⟨fs, hv, hstep⟩ := flattenStep_of_isObj _ ho0
      have hrec := ih (i + 1) (by omega) (by simp at hlt ⊢; omega)
        (fun j hj hjk => by
          have e : i + (j + 1) = i + 1 + j := by omega
          have h2 := ho (j + 1) (by simpa using Nat.succ_lt_succ hj) (by omega)
          rwa [e] at h2)
      have htake : (row :: rest).take (k - i) = row :: rest.take (k - i - 1) := by
        cases hdiff : k - i with
        | zero => omega
        | succ m => rw [List.take_succ_cons]; simp
      have hsub : k - (i + 1) = k - i - 1 := by omega
      rw [hsub] at hrec
      simp only [runLoop, hobs, Bool.false_eq_true, if_false, hstep, hrec, htake,
        expectedEvents, List.append_assoc, List.cons_append, List.nil_append]

theorem runLoop_snd_cons (cfg : WorkerConfig) (env : Env) (hdrs : List String) (total : Nat)
    (row : List (Option String)) (rest : List (List (Option String))) (i : Nat) :
    (runLoop cfg env hdrs total (row :: rest) i).2 =
      if cancelObserved env i then LoopOut.stopped
      else
        match flattenStep (rawInsights env i) with
        | Except.error msg => LoopOut.crashed msg
        | Except.ok flat =>
            match (runLoop cfg env hdrs total rest (i + 1)).2 with
            | LoopOut.done rs => LoopOut.done (flat :: rs)
            | out => out := by
  simp only [runLoop]
  split
  · rfl
  · cases flattenStep (rawInsights env i) with
    | error msg => rfl
    | ok flat => cases (runLoop cfg env hdrs total rest (i + 1)).2 <;> rfl

theorem runLoop_done_results (cfg : WorkerConfig) (env : Env) (hdrs : List String) (total : Nat) :
    ∀ (rows : List (List (Option String))) (i : Nat) (evs : List Event)
      (rs : List (List (String × JVal))),
      runLoop cfg env hdrs total rows i = (evs, LoopOut.done rs) →
      ∀ r ∈ rs, ∃ fs, r = flattenInsights fs := by
  intro rows
  induction rows with
  | nil =>
    intro i evs rs h r hr
    have h2 : (runLoop cfg env hdrs total [] i).2 = LoopOut.done rs := by rw [h]
    simp only [runLoop] at h2
    cases h2
    simp at hr
  | cons row rest ih =>
    intro i evs rs h r hr
    have h2 : (runLoop cfg env hdrs total (row :: rest) i).2 = LoopOut.done rs := by rw [h]
    rw [runLoop_snd_cons] at h2
    by_cases hco : cancelObserved env i = true
    · rw [if_pos hco] at h2; cases h2
    · rw [if_neg hco] at h2
      cases hfs : flattenStep (rawInsights env i) with
      | error msg => rw [hfs] at h2; cases h2
      | ok flat =>
        rw [hfs] at h2
        cases hr2 : (runLoop cfg env hdrs total rest (i + 1)).2 with
        | done rs' =>
          rw [hr2] at h2
          cases h2
          rcases List.mem_cons.mp hr with hre | hrm
          · obtain ⟨fs, -, hflat⟩ := flattenStep_ok_inv _ _ hfs
            exact ⟨fs, hre.trans hflat⟩
          · refine ih (i + 1) (runLoop cfg env hdrs total rest (i + 1)).1 rs' ?_ r hrm
            rw [← hr2]
        | stopped => rw [hr2] at h2; cases h2
        | crashed msg => rw [hr2] at h2; cases h2

/-! ### Lemmas about the expected traces and results -/

theorem expectedResults_length (env : Env) :
    ∀ (rows : List (List (Option String))) (i : Nat),
      (expectedResults env rows i).length = rows.length := by
  intro rows
  induction rows with
  | nil => intro i; rfl
  | cons row rest ih => intro i; simp [expectedResults, ih]

theorem expectedResults_get (env : Env) :
    ∀ (rows : List (List (Option String))) (i j : Nat), j < rows.length →
      (expectedResults env rows i).get? j = some (flatOf env (i + j)) := by
  intro rows
  induction rows with
  | nil => intro i j hj; simp at hj
  | cons row rest ih =>
    intro i j hj
    cases j with
    | zero => simp [expectedResults]
    | succ m =>
        have hm : m < rest.length := by simpa using hj
        have ihm := ih (i + 1) m hm
        have e : i + 1 + m = i + (m + 1) := by omega
        rw [e] at ihm
        simpa [expectedResults] using ihm

theorem countSleeps_append (a b : List Event) :
    countSleeps (a ++ b) = countSleeps a + countSleeps b := by
  simp [countSleeps, List.filter_append]

theorem countCalls_append (a b : List Event) :
    countCalls (a ++ b) = countCalls a + countCalls b := by
  simp [countCalls, List.filter_append]

theorem countSleeps_rowEventsPre (cfg : WorkerConfig) (env : Env) (hdrs : List String)
    (total : Nat) (row : List (Option String)) (i : Nat) :
    countSleeps (rowEventsPre cfg env hdrs total row i) = 0 := by
  unfold rowEventsPre rowWarnEvents
  cases rowError env i <;> simp [countSleeps, isSleep]

theorem countCalls_rowEventsPre (cfg : WorkerConfig) (env : Env) (hdrs : List String)
    (total : Nat) (row : List (Option String)) (i : Nat) :
    countCalls (rowEventsPre cfg env hdrs total row i) = 1 := by
  unfold rowEventsPre rowWarnEvents
  cases rowError env i <;> simp [countCalls, isCall]

theorem countSleeps_expectedEvents (cfg : WorkerConfig) (env : Env) (hdrs : List String)
    (total : Nat) :
    ∀ (rows : List (List (Option String))) (i : Nat),
      countSleeps (expectedEvents cfg env hdrs total rows i) = rows.length := by
  intro rows
  induction rows with
  | nil => intro i; rfl
  | cons row rest ih =>
    intro i
    have h1 := countSleeps_append (rowEventsPre cfg env hdrs total row i)
      (Event.sleep :: expectedEvents cfg env hdrs total rest (i + 1))
    simp only [expectedEvents, h1, countSleeps_rowEventsPre]
    have h2 : countSleeps (Event.sleep :: expectedEvents cfg env hdrs total rest (i + 1))
        = 1 + countSleeps (expectedEvents cfg env hdrs total rest (i + 1)) := by
      simp [countSleeps, isSleep, Nat.add_comm]
    simp [h2, ih, Nat.add_comm]

theorem countCalls_expectedEvents (cfg : WorkerConfig) (env : Env) (hdrs : List String)
    (total : Nat) :
    ∀ (rows : List (List (Option String))) (i : Nat),
      countCalls (expectedEvents cfg env hdrs total rows i) = rows.length := by
  intro rows
  induction rows with
  | nil => intro i; rfl
  | cons row rest ih =>
    intro i
    have h1 := countCalls_append (rowEventsPre cfg env hdrs total row i)
      (Event.sleep :: expectedEvents cfg env hdrs total rest (i + 1))
    simp only [expectedEvents, h1, countCalls_rowEventsPre]
    have h2 : countCalls (Event.sleep :: expectedEvents cfg env hdrs total rest (i + 1))
        = countCalls (expectedEvents cfg env hdrs total rest (i + 1)) := by
      simp [countCalls, isCall]
    simp [h2, ih, Nat.add_comm]

theorem inferCall_mem_expectedEvents (cfg : WorkerConfig) (env : Env) (hdrs : List String)
    (total : Nat) :
    ∀ (rows : List (List (Option String))) (i j : Nat) (p : String),
      Event.inferCall j p ∈ expectedEvents cfg env hdrs total rows i →
      ∃ row, rows.get? (j - i) = some row ∧ i ≤ j ∧
        p = promptFor (normCell (cellOf hdrs row cfg.fullname_col))
              (normCell (cellOf hdrs row cfg.username_col)) := by
  intro rows
  induction rows with
  | nil => intro i j p h; simp [expectedEvents] at h
  | cons row rest ih =>
    intro i j p h
    simp only [expectedEvents, List.mem_append, List.mem_cons] at h
    rcases h with hpre | hsleep | hmem
    · unfold rowEventsPre at hpre
      rcases List.mem_cons.mp hpre with h1 | h1
      · cases h1
      · rcases List.mem_cons.mp h1 with h2 | h2
        · obtain ⟨hj, hp⟩ := Event.inferCall.inj h2
          subst hj
          exact ⟨row, by simp, Nat.le_refl _, hp⟩
        · unfold rowWarnEvents at h2
          cases hre : rowError env i with
          | none => rw [hre] at h2; simp at h2
          | some e => rw [hre] at h2; simp at h2
    · cases hsleep
    · obtain ⟨row', hget, hij, hp⟩ := ih (i + 1) j p hmem
      refine ⟨row', ?_, by omega, hp⟩
      have e : j - i = (j - (i + 1)) + 1 := by omega
      rw [e]
      simpa using hget

/-! ### Lemmas about `Worker.run` as a whole -/

theorem run_natural_eq (cfg : WorkerConfig) (env : Env) (df : Dataset)
    (h1 : env.configure = Except.ok ())
    (h2 : env.loadData = Except.ok df)
    (h3 : (df.headers.contains cfg.fullname_col && df.headers.contains cfg.username_col) = true)
    (h4 : ∀ j, j < df.rows.length → cancelObserved env j = false)
    (h5 : ∀ j, j < df.rows.length → isObj (rawInsights env j) = true) :
    Worker.run cfg env =
      ⟨Event.progress "Gemini API configured successfully."
         :: Event.progress ("Successfully loaded " ++ basename cfg.input_filepath ++ ".")
         :: Event.progress ("Found " ++ toString df.rows.length ++ " rows to analyze.")
         :: expectedEvents cfg env df.headers df.rows.length df.rows 0,
       Outcome.finished (outputPath cfg.input_filepath),
       some (outputPath cfg.input_filepath, ⟨df, expectedResults env df.rows 0⟩)⟩ := by
  have hloop := runLoop_done_eq cfg env df.headers df.rows.length df.rows 0
    (fun j hj => by simpa using h4 j hj)
    (fun j hj => by simpa using h5 j hj)
  simp only [Worker.run, h1, h2, h3, if_true, hloop]

theorem run_cancel_eq (cfg : WorkerConfig) (env : Env) (df : Dataset) (k : Nat)
    (h1 : env.configure = Except.ok ())
    (h2 : env.loadData = Except.ok df)
    (h3 : (df.headers.contains cfg.fullname_col && df.headers.contains cfg.username_col) = true)
    (hk : env.cancelAt = some k) (hklt : k < df.rows.length)
    (h5 : ∀ j, j < k → isObj (rawInsights env j) = true) :
    Worker.run cfg env =
      ⟨Event.progress "Gemini API configured successfully."
         :: Event.progress ("Successfully loaded " ++ basename cfg.input_filepath ++ ".")
         :: Event.progress ("Found " ++ toString df.rows.length ++ " rows to analyze.")
         :: (expectedEvents cfg env df.headers df.rows.length (df.rows.take k) 0
              ++ [Event.progress "\nAnalysis stopped by user."]),
       Outcome.cancelled, none⟩ := by
  have hloop := runLoop_cancel_eq cfg env df.headers df.rows.length k hk df.rows 0
    (Nat.zero_le _) (by simpa using hklt)
    (fun j hj hjk => by
      have := h5 j (by simpa using hjk)
      simpa using this)
  simp only [Nat.sub_zero] at hloop
  simp only [Worker.run, h1, h2, h3, if_true, hloop]

theorem run_written_inv (cfg : WorkerConfig) (env : Env) (p : String) (t : FinalTable)
    (h : (Worker.run cfg env).written = some (p, t)) :
    p = outputPath cfg.input_filepath ∧
    ∃ df, env.loadData = Except.ok df ∧ t.data = df ∧
      runLoop cfg env df.headers df.rows.length df.rows 0 =
        ((runLoop cfg env df.headers df.rows.length df.rows 0).1, LoopOut.done t.results) := by
  cases hcfg : env.configure with
  | error e => simp [Worker.run, hcfg] at h
  | ok u =>
    cases hload : env.loadData with
    | error e => simp [Worker.run, hcfg, hload] at h
    | ok df =>
      by_cases hcols :
          (df.headers.contains cfg.fullname_col && df.headers.contains cfg.username_col) = true
      · cases hloop : (runLoop cfg env df.headers df.rows.length df.rows 0).2 with
        | done rs =>
          simp only [Worker.run, hcfg, hcols, hload, if_true] at h
          rw [hloop] at h
          simp only [Option.some.injEq, Prod.mk.injEq] at h
          obtain ⟨hp, ht⟩ := h
          subst ht
          refine ⟨hp.symm, df, rfl, rfl, ?_⟩
          show runLoop cfg env df.headers df.rows.length df.rows 0 =
            ((runLoop cfg env df.headers df.rows.length df.rows 0).1, LoopOut.done rs)
          rw [← hloop]
        | stopped =>
          simp only [Worker.run, hcfg, hcols, hload, if_true] at h
          rw [hloop] at h
          simp at h
        | crashed msg =>
          simp only [Worker.run, hcfg, hcols, hload, if_true] at h
          rw [hloop] at h
          simp at h
      · have hcf :
            (df.headers.contains cfg.fullname_col && df.headers.contains cfg.username_col)
              = false := by
          cases hb : (df.headers.contains cfg.fullname_col
              && df.headers.contains cfg.username_col)
          · rfl
          · exact absurd hb hcols
        simp only [Worker.run, hcfg, hload, hcf, Bool.false_eq_true, if_false] at h
        exact Option.noConfusion h

theorem run_written_results (cfg : WorkerConfig) (env : Env) (p : String) (t : FinalTable)
    (h : (Worker.run cfg env).written = some (p, t)) :
    ∀ r ∈ t.results, ∃ fs, r = flattenInsights fs := by
  obtain ⟨-, df, -, -, hloop⟩ := run_written_inv cfg env p t h
  exact runLoop_done_results cfg env df.headers df.rows.length df.rows 0
    (runLoop cfg env df.headers df.rows.length df.rows 0).1 t.results hloop

/-! ### Lemmas about the flattening of parsed responses -/

theorem append_value_ne_error (k : String) : (k ++ "_value") ≠ "error" := by
  intro he
  have hl : (k ++ "_value").length = ("error" : String).length := congrArg String.length he
  rw [String.length_append] at hl
  have h6 : ("_value" : String).length = 6 := rfl
  have h5 : ("error" : String).length = 5 := rfl
  omega

theorem append_conf_ne_error (k : String) : (k ++ "_confidence") ≠ "error" := by
  intro he
  have hl : (k ++ "_confidence").length = ("error" : String).length :=
    congrArg String.length he
  rw [String.length_append] at hl
  have h11 : ("_confidence" : String).length = 11 := rfl
  have h5 : ("error" : String).length = 5 := rfl
  omega

theorem errorPresent_flattenPairs (fs : List (String × JVal)) :
    errorPresent (flattenPairs fs) = false := by
  induction fs with
  | nil => rfl
  | cons p rest ih =>
    obtain ⟨k, v⟩ := p
    cases v with
    | jobj sub =>
        have h1 : ((k ++ "_value") == "error") = false :=
          beq_eq_false_iff_ne.mpr (append_value_ne_error k)
        have h2 : ((k ++ "_confidence") == "error") = false :=
          beq_eq_false_iff_ne.mpr (append_conf_ne_error k)
        simpa [flattenPairs, errorPresent, hasKey, List.any_cons, h1, h2] using ih
    | jnull => simpa [flattenPairs] using ih
    | jbool b => simpa [flattenPairs] using ih
    | jnum n => simpa [flattenPairs] using ih
    | jstr s => simpa [flattenPairs] using ih
    | jarr xs => simpa [flattenPairs] using ih

theorem errorPresent_flattenInsights (fs : List (String × JVal)) :
    errorPresent (flattenInsights fs) = hasKey fs "error" := by
  unfold flattenInsights
  by_cases h : hasKey fs "error" = true
  · rw [if_pos h, h]; rfl
  · have hf : hasKey fs "error" = false := by simpa using h
    rw [if_neg h, errorPresent_flattenPairs, hf]

theorem hasKey_cons_of (x : String × JVal) (fs : List (String × JVal)) (key : String)
    (h : hasKey fs key = true) : hasKey (x :: fs) key = true := by
  unfold hasKey at h ⊢
  rw [List.any_cons, h, Bool.or_true]

theorem hasKey_flattenPairs_of_mem (fs : List (String × JVal)) (a : String)
    (sub : List (String × JVal)) (hmem : (a, JVal.jobj sub) ∈ fs) :
    hasKey (flattenPairs fs) (a ++ "_value") = true ∧
    hasKey (flattenPairs fs) (a ++ "_confidence") = true := by
  induction fs with
  | nil => cases hmem
  | cons p rest ih =>
    obtain ⟨k, v⟩ := p
    rcases List.mem_cons.mp hmem with he | hm
    · cases he.symm
      constructor <;> simp [flattenPairs, hasKey, List.any_cons]
    · cases v with
      | jobj sub2 =>
          obtain ⟨ihv, ihc⟩ := ih hm
          exact ⟨hasKey_cons_of _ _ _ (hasKey_cons_of _ _ _ ihv),
                 hasKey_cons_of _ _ _ (hasKey_cons_of _ _ _ ihc)⟩
      | jnull => simpa [flattenPairs] using ih hm
      | jbool b => simpa [flattenPairs] using ih hm
      | jnum n => simpa [flattenPairs] using ih hm
      | jstr s => simpa [flattenPairs] using ih hm
      | jarr xs => simpa [flattenPairs] using ih hm

theorem fourPairs_error_row (v : JVal) : fourPairsPresent [("error", v)] = false := rfl

theorem flattenInsights_not_both (fs : List (String × JVal)) :
    ¬(fourPairsPresent (flattenInsights fs) = true ∧
      errorPresent (flattenInsights fs) = true) := by
  rintro ⟨h4, herr⟩
  unfold flattenInsights at h4 herr
  by_cases h : hasKey fs "error" = true
  · rw [if_pos h, fourPairs_error_row] at h4
    cases h4
  · rw [if_neg h, errorPresent_flattenPairs] at herr
    cases herr

theorem fourPairsPresent_flattenInsights (fs : List (String × JVal))
    (herr : hasKey fs "error" = false) (hconf : schemaConforming fs) :
    fourPairsPresent (flattenInsights fs) = true := by
  unfold flattenInsights
  rw [if_neg (by rw [herr]; exact Bool.false_ne_true)]
  unfold fourPairsPresent
  rw [List.all_eq_true]
  intro a ha
  obtain ⟨sub, hmem⟩ := hconf a ha
  obtain ⟨h1, h2⟩ := hasKey_flattenPairs_of_mem fs a sub hmem
  rw [h1, h2]; rfl

theorem flattenPairs_eq_flatMap (fs : List (String × JVal)) :
    flattenPairs fs = fs.flatMap pairsOf := by
  induction fs with
  | nil => rfl
  | cons p rest ih =>
    obtain ⟨k, v⟩ := p
    cases v with
    | jobj sub => simp only [flattenPairs, ih]; rfl
    | jnull => simpa [flattenPairs] using ih
    | jbool b => simpa [flattenPairs] using ih
    | jnum n => simpa [flattenPairs] using ih
    | jstr s => simpa [flattenPairs] using ih
    | jarr xs => simpa [flattenPairs] using ih

theorem lookupD_of_missing (sub : List (String × JVal)) (key : String)
    (h : sub.lookup key = none) : lookupD sub key = JVal.jnull := by
  unfold lookupD; rw [h]

theorem flatOf_of_rowError (env : Env) (j : Nat) (e : String)
    (he : rowError env j = some e) : flatOf env j = [("error", JVal.jstr e)] := by
  unfold rowError at he
  unfold flatOf rawInsights
  cases hresp : env.respond j with
  | error e2 =>
      simp only [hresp] at he ⊢
      cases he
      rfl
  | ok t =>
      simp only [hresp] at he ⊢
      cases hload : env.loads (cleanResponse t) with
      | error e2 =>
          simp only [hload] at he ⊢
          cases he
          rfl
      | ok v =>
          simp only [hload] at he
          cases he

theorem countSleeps_cons_progress (s : String) (evs : List Event) :
    countSleeps (Event.progress s :: evs) = countSleeps evs := by
  simp [countSleeps, isSleep]

/-! ### The claims -/

/-- C1 counterexample: the claim asserts the exactly-one invariant "for
every possible inference response (including empty, partial, or
extra-keyed JSON objects)".  It fails on the code: in a run that
completes naturally where row 0's response parses to the empty JSON
object, the recorded FlattenedResult is the empty mapping, which has
neither all four `_value`/`_confidence` pairs nor the `error` key. -/
theorem C1_claim_counterexample :
    (Worker.run demoCfg demoEnvEmptyObj).outcome = Outcome.finished "data/users_output.csv" ∧
    ((Worker.run demoCfg demoEnvEmptyObj).written.map (fun w => w.2.results.get? 0))
      = some (some []) ∧
    fourPairsPresent [] = false ∧ errorPresent [] = false :=
  ⟨rfl, rfl, rfl, rfl⟩

/-- C1 (amended): every FlattenedResult recorded by a run that writes
its output is `flattenInsights` of some parsed insights dict, and for
every such dict: the four pairs and the `error` key are never both
present; the `error` key is present in the flattened row exactly when
the insights dict carries an `error` key (in particular whenever the
request raised or parsing failed); and when the insights dict has no
`error` key and binds each of the four attributes to an object, all
four `_value`/`_confidence` pairs are present.  For non-conforming
dicts (e.g. the empty object) neither side need hold. -/
theorem C1_amended_flatten :
    (∀ (cfg : WorkerConfig) (env : Env) (p : String) (t : FinalTable),
        (Worker.run cfg env).written = some (p, t) →
        ∀ r ∈ t.results, ∃ fs, r = flattenInsights fs) ∧
    (∀ fs, ¬(fourPairsPresent (flattenInsights fs) = true ∧
             errorPresent (flattenInsights fs) = true)) ∧
    (∀ fs, errorPresent (flattenInsights fs) = hasKey fs "error") ∧
    (∀ fs, hasKey fs "error" = false → schemaConforming fs →
        fourPairsPresent (flattenInsights fs) = true) :=
  ⟨run_written_results, flattenInsights_not_both, errorPresent_flattenInsights,
    fourPairsPresent_flattenInsights⟩

/-- C1 witness: the amended statement applied to concrete inputs — the
schema-conforming demo response yields all four pairs, and a row of a
concrete written run is a `flattenInsights` image. -/
theorem C1_amended_flatten_witness :
    fourPairsPresent (flattenInsights goodFields) = true ∧
    (∃ fs, errFlat = flattenInsights fs) := by
  constructor
  · refine C1_amended_flatten.2.2.2 goodFields rfl ?_
    intro a ha
    simp only [fourAttrs, List.mem_cons, List.not_mem_nil, or_false] at ha
    rcases ha with rfl | rfl | rfl | rfl
    · exact ⟨[("value", JVal.jstr "Female"), ("confidence", JVal.jnum 1)], by simp [goodFields]⟩
    · exact ⟨[("value", JVal.jstr "British"), ("confidence", JVal.jnum 1)], by simp [goodFields]⟩
    · exact ⟨[("value", JVal.jstr "English"), ("confidence", JVal.jnum 1)], by simp [goodFields]⟩
    · exact ⟨[("value", JVal.jstr "General"), ("confidence", JVal.jnum 1)], by simp [goodFields]⟩
  · exact C1_amended_flatten.1 demoCfg demoEnvRowFail "data/users_output.csv"
      ⟨demoDf, [errFlat, goodFlat]⟩ rfl errFlat (List.mem_cons_self _ _)

/-- C2: in a run that reaches the loop and is neither cancelled nor
crashed, every row whose inference call raised or whose response failed
to parse records the `{error: message}` marker, every row still gets a
result, and the run terminates with the finished signal — row-level
failures never abort the run.  (The `isObj` hypothesis only excludes
responses that parse successfully to a non-dict; raised calls and parse
failures satisfy it automatically, since the caught handler builds an
`error` dict.) -/
theorem C2_row_failures_never_abort (cfg : WorkerConfig) (env : Env) (df : Dataset)
    (h1 : env.configure = Except.ok ())
    (h2 : env.loadData = Except.ok df)
    (h3 : (df.headers.contains cfg.fullname_col && df.headers.contains cfg.username_col) = true)
    (h4 : ∀ j, j < df.rows.length → cancelObserved env j = false)
    (h5 : ∀ j, j < df.rows.length → isObj (rawInsights env j) = true) :
    (Worker.run cfg env).outcome = Outcome.finished (outputPath cfg.input_filepath) ∧
    (∃ t, (Worker.run cfg env).written = some (outputPath cfg.input_filepath, t) ∧
      t.results.length = df.rows.length ∧
      ∀ j e, j < df.rows.length → rowError env j = some e →
        t.results.get? j = some [("error", JVal.jstr e)]) := by
  have hr := run_natural_eq cfg env df h1 h2 h3 h4 h5
  rw [hr]
  refine ⟨rfl, ⟨df, expectedResults env df.rows 0⟩, rfl,
    expectedResults_length env df.rows 0, ?_⟩
  intro j e hj he
  rw [expectedResults_get env df.rows 0 j hj]
  rw [show (0 : Nat) + j = j from by omega]
  rw [flatOf_of_rowError env j e he]

/-- C2 witness: a concrete two-row run where row 0's call raises;
the run still finishes and row 0 carries the error marker. -/
theorem C2_row_failures_never_abort_witness :
    (Worker.run demoCfg demoEnvRowFail).outcome
      = Outcome.finished (outputPath demoCfg.input_filepath) ∧
    (∃ t, (Worker.run demoCfg demoEnvRowFail).written
        = some (outputPath demoCfg.input_filepath, t) ∧
      t.results.length = demoDf.rows.length ∧
      ∀ j e, j < demoDf.rows.length → rowError demoEnvRowFail j = some e →
        t.results.get? j = some [("error", JVal.jstr e)]) :=
  C2_row_failures_never_abort demoCfg demoEnvRowFail demoDf rfl rfl (by decide)
    (by decide) (by decide)

/-- C3: a credential rejected at the configure step aborts the run
immediately: the terminal signal is the error message, no event at all
is emitted (in particular zero inference calls), and nothing is
written. -/
theorem C3_bad_credential_aborts (cfg : WorkerConfig) (env : Env) (e : String)
    (h : env.configure = Except.error e) :
    Worker.run cfg env =
      ⟨[], Outcome.failedRun ("A critical error occurred: " ++ e), none⟩ ∧
    countCalls (Worker.run cfg env).events = 0 ∧
    (Worker.run cfg env).written = none := by
  have hr : Worker.run cfg env =
      ⟨[], Outcome.failedRun ("A critical error occurred: " ++ e), none⟩ := by
    simp [Worker.run, h]
  exact ⟨hr, by rw [hr]; rfl, by rw [hr]⟩

/-- C3 witness: the concrete bad-credential environment. -/
theorem C3_bad_credential_aborts_witness :
    Worker.run demoCfg demoEnvBadKey =
      ⟨[], Outcome.failedRun
        ("A critical error occurred: " ++ "API key not valid. Please pass a valid API key."),
       none⟩ ∧
    countCalls (Worker.run demoCfg demoEnvBadKey).events = 0 ∧
    (Worker.run demoCfg demoEnvBadKey).written = none :=
  C3_bad_credential_aborts demoCfg demoEnvBadKey
    "API key not valid. Please pass a valid API key." rfl

/-- C4: when the cancellation flag is observed at the checkpoint before
row `k` (the rows before `k` having been processed without a crash),
the run terminates with the cancellation notice and writes nothing —
all partial results are discarded and no file is produced at the
output path. -/
theorem C4_cancel_discards_output (cfg : WorkerConfig) (env : Env) (df : Dataset) (k : Nat)
    (h1 : env.configure = Except.ok ())
    (h2 : env.loadData = Except.ok df)
    (h3 : (df.headers.contains cfg.fullname_col && df.headers.contains cfg.username_col) = true)
    (hk : env.cancelAt = some k) (hklt : k < df.rows.length)
    (h5 : ∀ j, j < k → isObj (rawInsights env j) = true) :
    (Worker.run cfg env).outcome = Outcome.cancelled ∧
    (Worker.run cfg env).written = none := by
  have hr := run_cancel_eq cfg env df k h1 h2 h3 hk hklt h5
  rw [hr]
  exact ⟨rfl, rfl⟩

/-- C4 witness: cancellation observed before row 1 of the two-row demo
run. -/
theorem C4_cancel_discards_output_witness :
    (Worker.run demoCfg demoEnvCancel).outcome = Outcome.cancelled ∧
    (Worker.run demoCfg demoEnvCancel).written = none :=
  C4_cancel_discards_output demoCfg demoEnvCancel demoDf 1 rfl rfl (by decide) rfl
    (by decide) (by decide)

/-- C5: a naturally completed run writes exactly one output row per
input row — the results buffer has the same length as the input and
the concatenated frame has exactly `len(input_rows)` rows — with the
result at position `j` derived from row `j`'s response (failed rows
included). -/
theorem C5_one_output_row_per_input (cfg : WorkerConfig) (env : Env) (df : Dataset)
    (h1 : env.configure = Except.ok ())
    (h2 : env.loadData = Except.ok df)
    (h3 : (df.headers.contains cfg.fullname_col && df.headers.contains cfg.username_col) = true)
    (h4 : ∀ j, j < df.rows.length → cancelObserved env j = false)
    (h5 : ∀ j, j < df.rows.length → isObj (rawInsights env j) = true) :
    ∃ t, (Worker.run cfg env).written = some (outputPath cfg.input_filepath, t) ∧
      t.data = df ∧
      t.results.length = df.rows.length ∧
      t.numRows = df.rows.length ∧
      ∀ j, j < df.rows.length → t.results.get? j = some (flatOf env j) := by
  have hr := run_natural_eq cfg env df h1 h2 h3 h4 h5
  rw [hr]
  refine ⟨⟨df, expectedResults env df.rows 0⟩, rfl, rfl,
    expectedResults_length env df.rows 0, ?_, ?_⟩
  · unfold FinalTable.numRows
    rw [expectedResults_length env df.rows 0]
    exact Nat.max_self _
  · intro j hj
    have h := expectedResults_get env df.rows 0 j hj
    rw [show (0 : Nat) + j = j from by omega] at h
    exact h

/-- C5 witness: the two-row demo run yields a two-row results buffer
aligned with the input. -/
theorem C5_one_output_row_per_input_witness :
    ∃ t, (Worker.run demoCfg demoEnv).written
        = some (outputPath demoCfg.input_filepath, t) ∧
      t.data = demoDf ∧
      t.results.length = demoDf.rows.length ∧
      t.numRows = demoDf.rows.length ∧
      ∀ j, j < demoDf.rows.length → t.results.get? j = some (flatOf demoEnv j) :=
  C5_one_output_row_per_input demoCfg demoEnv demoDf rfl rfl (by decide) (by decide)
    (by decide)

/-- C6: when either requested column is absent from the loaded
headers, the run fails with the column error before any inference
request: zero calls are issued and nothing is written. -/
theorem C6_column_error_before_calls (cfg : WorkerConfig) (env : Env) (df : Dataset)
    (h1 : env.configure = Except.ok ())
    (h2 : env.loadData = Except.ok df)
    (h3 : (df.headers.contains cfg.fullname_col && df.headers.contains cfg.username_col)
        = false) :
    (Worker.run cfg env).outcome =
      Outcome.failedRun ("Column Error: Please ensure \x27" ++ cfg.fullname_col
        ++ "\x27 and \x27" ++ cfg.username_col ++ "\x27 exist in the file.") ∧
    countCalls (Worker.run cfg env).events = 0 ∧
    (Worker.run cfg env).written = none := by
  have hr : Worker.run cfg env =
      ⟨[Event.progress "Gemini API configured successfully.",
        Event.progress ("Successfully loaded " ++ basename cfg.input_filepath ++ ".")],
       Outcome.failedRun ("Column Error: Please ensure \x27" ++ cfg.fullname_col
         ++ "\x27 and \x27" ++ cfg.username_col ++ "\x27 exist in the file."), none⟩ := by
    simp only [Worker.run, h1, h2, h3, Bool.false_eq_true, if_false]
  rw [hr]
  exact ⟨rfl, rfl, rfl⟩

/-- C6 witness: requesting the absent column "Nope". -/
theorem C6_column_error_before_calls_witness :
    (Worker.run demoCfgBadCol demoEnv).outcome =
      Outcome.failedRun ("Column Error: Please ensure \x27" ++ demoCfgBadCol.fullname_col
        ++ "\x27 and \x27" ++ demoCfgBadCol.username_col ++ "\x27 exist in the file.") ∧
    countCalls (Worker.run demoCfgBadCol demoEnv).events = 0 ∧
    (Worker.run demoCfgBadCol demoEnv).written = none :=
  C6_column_error_before_calls demoCfgBadCol demoEnv demoDf rfl rfl (by decide)

/-- C7: every inference prompt of a naturally completed run embeds the
normalized cell values of its row, and normalization maps a missing or
empty cell to the empty string — a missing cell is embedded exactly as
`""`, never as a null/NaN marker. -/
theorem C7_missing_cells_normalized (cfg : WorkerConfig) (env : Env) (df : Dataset)
    (h1 : env.configure = Except.ok ())
    (h2 : env.loadData = Except.ok df)
    (h3 : (df.headers.contains cfg.fullname_col && df.headers.contains cfg.username_col) = true)
    (h4 : ∀ j, j < df.rows.length → cancelObserved env j = false)
    (h5 : ∀ j, j < df.rows.length → isObj (rawInsights env j) = true) :
    (∀ j p, Event.inferCall j p ∈ (Worker.run cfg env).events →
      ∃ row, df.rows.get? j = some row ∧
        p = promptFor (normCell (cellOf df.headers row cfg.fullname_col))
              (normCell (cellOf df.headers row cfg.username_col))) ∧
    (∀ c : Option String, (c = none ∨ c = some "") → normCell c = "") := by
  have hr := run_natural_eq cfg env df h1 h2 h3 h4 h5
  constructor
  · intro j p hmem
    have hmem2 : Event.inferCall j p ∈
        Event.progress "Gemini API configured successfully."
          :: Event.progress ("Successfully loaded " ++ basename cfg.input_filepath ++ ".")
          :: Event.progress ("Found " ++ toString df.rows.length ++ " rows to analyze.")
          :: expectedEvents cfg env df.headers df.rows.length df.rows 0 := by
      rw [hr] at hmem
      exact hmem
    rcases List.mem_cons.mp hmem2 with h | h
    · cases h
    rcases List.mem_cons.mp h with h | h
    · cases h
    rcases List.mem_cons.mp h with h | h
    · cases h
    obtain ⟨row, hget, hij, hp⟩ :=
      inferCall_mem_expectedEvents cfg env df.headers df.rows.length df.rows 0 j p h
    refine ⟨row, ?_, hp⟩
    rw [show j - 0 = j from by omega] at hget
    exact hget
  · rintro c (rfl | rfl) <;> rfl

/-- C7 witness: in the demo run, row 1 has both cells missing and its
prompt is exactly the prompt built from two empty strings. -/
theorem C7_missing_cells_normalized_witness :
    ∃ row, demoDf.rows.get? 1 = some row ∧
      promptFor "" "" = promptFor (normCell (cellOf demoDf.headers row demoCfg.fullname_col))
        (normCell (cellOf demoDf.headers row demoCfg.username_col)) := by
  obtain ⟨row, hget, hp⟩ :=
    (C7_missing_cells_normalized demoCfg demoEnv demoDf rfl rfl (by decide) (by decide)
        (by decide)).1 1 (promptFor "" "")
      (by
        rw [run_natural_eq demoCfg demoEnv demoDf rfl rfl (by decide) (by decide) (by decide)]
        exact List.mem_cons_of_mem _ (List.mem_cons_of_mem _ (List.mem_cons_of_mem _ (by
          show Event.inferCall 1 (promptFor "" "")
            ∈ expectedEvents demoCfg demoEnv demoDf.headers demoDf.rows.length demoDf.rows 0
          exact List.mem_append_right _ (List.mem_cons_of_mem _ (List.mem_append_left _
            (List.mem_cons_of_mem _ (List.mem_cons_self _ _))))))))
  exact ⟨row, hget, hp⟩

/-- C8: the output path of any run that writes is derived
deterministically from the input path — directory joined with the base
name, extension stripped, plus `_output.csv` — and in particular input
`data/users.xlsx` yields `data/users_output.csv`. -/
theorem C8_output_path_derivation :
    (∀ (cfg : WorkerConfig) (env : Env) (p : String) (t : FinalTable),
        (Worker.run cfg env).written = some (p, t) → p = outputPath cfg.input_filepath) ∧
    (∀ p : String,
        outputPath p = joinPath (dirname p) ((splitextBase (basename p)).1 ++ "_output.csv")) ∧
    outputPath "data/users.xlsx" = "data/users_output.csv" :=
  ⟨fun cfg env p t h => (run_written_inv cfg env p t h).1, fun _ => rfl, rfl⟩

/-- C8 witness: the concrete demo run writes at the derived path. -/
theorem C8_output_path_derivation_witness :
    "data/users_output.csv" = outputPath demoCfg.input_filepath :=
  C8_output_path_derivation.1 demoCfg demoEnv "data/users_output.csv"
    ⟨demoDf, [goodFlat, goodFlat]⟩ rfl

/-- C9: the fixed inter-row delay runs after every processed row,
unconditionally: a naturally completed run sleeps exactly once per row
(rows whose call or parse failed included), and a run cancelled before
row `k` slept exactly once for each of the `k` rows it processed. -/
theorem C9_sleep_after_every_row (cfg : WorkerConfig) (env : Env) (df : Dataset) :
    ((env.configure = Except.ok ()) → (env.loadData = Except.ok df) →
     ((df.headers.contains cfg.fullname_col && df.headers.contains cfg.username_col) = true) →
     (∀ j, j < df.rows.length → cancelObserved env j = false) →
     (∀ j, j < df.rows.length → isObj (rawInsights env j) = true) →
     countSleeps (Worker.run cfg env).events = df.rows.length) ∧
    (∀ k, (env.configure = Except.ok ()) → (env.loadData = Except.ok df) →
     ((df.headers.contains cfg.fullname_col && df.headers.contains cfg.username_col) = true) →
     env.cancelAt = some k → k < df.rows.length →
     (∀ j, j < k → isObj (rawInsights env j) = true) →
     countSleeps (Worker.run cfg env).events = k) := by
  constructor
  · intro h1 h2 h3 h4 h5
    rw [run_natural_eq cfg env df h1 h2 h3 h4 h5]
    show countSleeps (Event.progress _ :: Event.progress _ :: Event.progress _ :: _)
      = df.rows.length
    rw [countSleeps_cons_progress, countSleeps_cons_progress, countSleeps_cons_progress]
    exact countSleeps_expectedEvents cfg env df.headers df.rows.length df.rows 0
  · intro k h1 h2 h3 hk hklt h5
    rw [run_cancel_eq cfg env df k h1 h2 h3 hk hklt h5]
    show countSleeps (Event.progress _ :: Event.progress _ :: Event.progress _ :: _) = k
    rw [countSleeps_cons_progress, countSleeps_cons_progress, countSleeps_cons_progress,
      countSleeps_append, countSleeps_expectedEvents]
    have hstop : countSleeps [Event.progress "\nAnalysis stopped by user."] = 0 := rfl
    rw [hstop, List.length_take]
    omega

/-- C9 witness: the run with a failing row 0 still sleeps twice; the
run cancelled before row 1 sleeps once. -/
theorem C9_sleep_after_every_row_witness :
    countSleeps (Worker.run demoCfg demoEnvRowFail).events = demoDf.rows.length ∧
    countSleeps (Worker.run demoCfg demoEnvCancel).events = 1 :=
  ⟨(C9_sleep_after_every_row demoCfg demoEnvRowFail demoDf).1 rfl rfl (by decide)
      (by decide) (by decide),
   (C9_sleep_after_every_row demoCfg demoEnvCancel demoDf).2 1 rfl rfl (by decide) rfl
      (by decide) (by decide)⟩

/-- C10 (implicit): the flattening step is shape-driven, not
schema-driven — with no `error` key, the flattened row is the
concatenation over the parsed object's entries of the pairs each entry
contributes: a dict-valued key `k` contributes
`(k_value, ·)`/`(k_confidence, ·)` with a null placeholder when the
`value`/`confidence` sub-key is absent, and a non-dict-valued key
contributes nothing. -/
theorem C10_flattening_shape :
    (∀ fs, hasKey fs "error" = false → flattenInsights fs = fs.flatMap pairsOf) ∧
    (∀ k sub, pairsOf (k, JVal.jobj sub) =
        [(k ++ "_value", lookupD sub "value"),
         (k ++ "_confidence", lookupD sub "confidence")]) ∧
    (∀ sub key, sub.lookup key = none → lookupD sub key = JVal.jnull) ∧
    (∀ k v, isObj v = false → pairsOf (k, v) = []) := by
  refine ⟨?_, fun k sub => rfl, lookupD_of_missing, ?_⟩
  · intro fs herr
    unfold flattenInsights
    rw [if_neg (by rw [herr]; exact Bool.false_ne_true), flattenPairs_eq_flatMap]
  · intro k v hv
    cases v with
    | jobj fs => simp [isObj] at hv
    | jnull => rfl
    | jbool b => rfl
    | jnum n => rfl
    | jstr s => rfl
    | jarr xs => rfl

/-- C10 witness: a response with one empty-dict key and one string key
flattens to the two null-placeholder pairs of the dict key; the string
key is dropped. -/
theorem C10_flattening_shape_witness :
    flattenInsights [("predicted_gender", JVal.jobj []), ("note", JVal.jstr "x")]
      = [("predicted_gender_value", JVal.jnull),
         ("predicted_gender_confidence", JVal.jnull)] ∧
    lookupD [] "value" = JVal.jnull := by
  constructor
  · have h := C10_flattening_shape.1
      [("predicted_gender", JVal.jobj []), ("note", JVal.jstr "x")] rfl
    rw [h]
    rfl
  · exact C10_flattening_shape.2.2.1 [] "value" rfl

end PersonaScope
